import Mathlib

/-!
Verification of the LinuxDo-App HTTP client core against its
natural-language specification.

The development shallowly embeds the parts of the code that the claims
are about:

* the CSRF guard of the axios request interceptor and the response/error
  interceptors of `DiscourseAPI` (src/lib/api/index.ts);
* the WebView bridge transport state machine (`useWebViewAPIStore`,
  src/unnamed/part_013);
* the parameter partitioning, path-template substitution and
  transport routing of `DiscourseAPI._exec` (src/lib/api/index.ts);
* `loadCookies` together with the tough-cookie domain/path matching it
  relies on (src/lib/api/index.ts);
* the challenge-completion path of `CloudflareChallengeModal` and
  `useCloudflareStore` (src/components/CloudflareChallengeModal.tsx,
  src/unnamed/part_015).

JavaScript is single threaded, so the concurrent behaviour of the app is
embedded as step functions on explicit state, driven by event traces;
every entry point of the embedded code is one event.
-/

namespace LinuxDoApp

/-- Substring test: `containsSub s pat` is true when `pat` occurs inside `s`
(the embedding of JavaScript `s.includes(pat)`). -/
def containsSub (s pat : String) : Bool :=
  (List.range (s.length + 1)).any (fun i => pat.data.isPrefixOf (s.data.drop i))

/-- The JavaScript error values thrown by the client, one constructor per
error class used by src/lib/api/index.ts: plain `Error`, `HTTPError`,
the (declared) `ParamaterValidationError`, and the `cfError` marked with
`isCloudflareChallenge = true`. -/
inductive JsError where
  | genericError (msg : String)
  | httpError (status : Nat) (info : String)
  | paramaterValidationError (msg : String)
  | challengeRequired
deriving DecidableEq, Repr

instance {ε α : Type} [DecidableEq ε] [DecidableEq α] :
    DecidableEq (Except ε α) := fun a b =>
  match a, b with
  | .error e1, .error e2 =>
      if h : e1 = e2 then .isTrue (by rw [h])
      else .isFalse (fun hc => h (by cases hc; rfl))
  | .ok v1, .ok v2 =>
      if h : v1 = v2 then .isTrue (by rw [h])
      else .isFalse (fun hc => h (by cases hc; rfl))
  | .error _, .ok _ => .isFalse (fun hc => by cases hc)
  | .ok _, .error _ => .isFalse (fun hc => by cases hc)

/-! ## CSRF state machine (request interceptor of `DiscourseAPI`)

The axios default header `X-CSRF-Token` is a JavaScript value that the
code distinguishes three ways: `null` (set by the bad-CSRF handler),
`undefined` (initial, and what the interceptor resets `null` to), or a
token string. -/

inductive TokenState where
  | nullTok
  | undefTok
  | tokenStr (s : String)
deriving DecidableEq, Repr

/-- The CSRF-related mutable state of a `DiscourseAPI` instance:
`token` is `axiosInstance.defaults.headers.common["X-CSRF-Token"]`,
`isGettingCsrf` and `lastCsrfAttempt` are the private fields of the class.
`inFlight` counts started-but-unfinished `get_session_csrf` fetches and
`startTimes` records the times at which the interceptor started one
(both are observations, not code state). -/
structure CsrfState where
  token : TokenState
  isGettingCsrf : Bool
  lastCsrfAttempt : Int
  inFlight : Nat
  startTimes : List Int
deriving DecidableEq, Repr

/-- State at construction: defaults header unset (`undefined`),
`isGettingCsrf = false`, `lastCsrfAttempt = 0`. -/
def csrfInit : CsrfState :=
  { token := .undefTok, isGettingCsrf := false, lastCsrfAttempt := 0
    inFlight := 0, startTimes := [] }

/-- Events touching the CSRF state: a request passing through the request
interceptor at time `now` (`Date.now()`) for `url`; the `finally` of a
`get_session_csrf()` fetch; a response whose JSON body carries a `csrf`
field; the 403 `["BAD CSRF"]` error response. -/
inductive CsrfEvent where
  | intercept (now : Int) (url : String)
  | refreshSettled
  | csrfTokenReceived (tok : String)
  | badCsrf
deriving DecidableEq, Repr

/-- One step of the CSRF state, translated from the interceptors in the
`DiscourseAPI` constructor. The refresh is started only from the
`=== null` branch, guarded by the url check, `isGettingCsrf` and the
1000 ms throttle. -/
def csrfStep (s : CsrfState) : CsrfEvent → CsrfState
  | .intercept now url =>
      if s.token = .nullTok then
        let s1 : CsrfState := { s with token := .undefTok }
        if url ≠ "/session/csrf" ∧ s1.isGettingCsrf = false ∧
            s1.lastCsrfAttempt + 1000 < now then
          { s1 with lastCsrfAttempt := now, isGettingCsrf := true
                    inFlight := s1.inFlight + 1
                    startTimes := s1.startTimes ++ [now] }
        else s1
      else s
  | .refreshSettled =>
      if 0 < s.inFlight then
        { s with isGettingCsrf := false, inFlight := s.inFlight - 1 }
      else s
  | .csrfTokenReceived tok => { s with token := .tokenStr tok }
  | .badCsrf => { s with token := .nullTok }

/-- Run the CSRF machine from construction over a trace of events. -/
def csrfRun (es : List CsrfEvent) : CsrfState :=
  es.foldl csrfStep csrfInit

/-- Inductive invariant for the CSRF machine. -/
def CsrfInv (s : CsrfState) : Prop :=
  s.inFlight = (if s.isGettingCsrf then 1 else 0) ∧
  List.Chain' (fun a b => a + 1000 < b) s.startTimes ∧
  (s.startTimes.getLast? = some s.lastCsrfAttempt ∨
    (s.startTimes = [] ∧ s.lastCsrfAttempt = 0))

lemma foldl_inv {σ ε : Type} (step : σ → ε → σ) (P : σ → Prop)
    (h : ∀ s e, P s → P (step s e)) :
    ∀ (es : List ε) (s : σ), P s → P (es.foldl step s) := by
  intro es
  induction es with
  | nil => intro s hs; simpa using hs
  | cons e es ih =>
      intro s hs
      simpa using ih _ (h s e hs)

lemma csrfStep_inv (s : CsrfState) (e : CsrfEvent) (h : CsrfInv s) :
    CsrfInv (csrfStep s e) := by
  obtain ⟨h1, h2, h3⟩ := h
  cases e with
  | intercept now url =>
      by_cases hnull : s.token = .nullTok
      · by_cases hg : url ≠ "/session/csrf" ∧ s.isGettingCsrf = false ∧
            s.lastCsrfAttempt + 1000 < now
        · obtain ⟨hu, hng, ht⟩ := hg
          have hstep : csrfStep s (.intercept now url) =
              { s with token := .undefTok, lastCsrfAttempt := now
                       isGettingCsrf := true, inFlight := s.inFlight + 1
                       startTimes := s.startTimes ++ [now] } := by
            simp [csrfStep, hnull, hu, hng, ht]
          rw [hstep]
          refine ⟨?_, ?_, ?_⟩
          · simp [h1, hng]
          · rw [List.chain'_append]
            refine ⟨h2, List.chain'_singleton now, ?_⟩
            intro x hx y hy
            simp only [List.head?_cons, Option.mem_def, Option.some.injEq] at hy
            subst hy
            rcases h3 with h3 | ⟨hemp, _⟩
            · rw [h3] at hx
              simp only [Option.mem_def, Option.some.injEq] at hx
              subst hx; exact ht
            · rw [hemp] at hx; simp at hx
          · left
            simp
        · have hstep : csrfStep s (.intercept now url) =
              { s with token := .undefTok } := by
            simp only [csrfStep]
            rw [if_pos hnull, if_neg hg]
          rw [hstep]
          exact ⟨h1, h2, h3⟩
      · have hstep : csrfStep s (.intercept now url) = s := by
          simp [csrfStep, hnull]
        rw [hstep]
        exact ⟨h1, h2, h3⟩
  | refreshSettled =>
      by_cases hp : 0 < s.inFlight
      · have hb : s.isGettingCsrf = true := by
          cases hb : s.isGettingCsrf
          · rw [hb] at h1
            simp only [if_neg Bool.false_ne_true] at h1
            exact absurd hp (by omega)
          · rfl
        have hstep : csrfStep s .refreshSettled =
            { s with isGettingCsrf := false, inFlight := s.inFlight - 1 } := by
          simp [csrfStep, hp]
        rw [hstep]
        refine ⟨?_, h2, h3⟩
        rw [hb] at h1
        simp only [if_pos rfl] at h1
        simp [h1]
      · have hstep : csrfStep s .refreshSettled = s := by
          simp [csrfStep, hp]
        rw [hstep]
        exact ⟨h1, h2, h3⟩
  | csrfTokenReceived tok => exact ⟨h1, h2, h3⟩
  | badCsrf => exact ⟨h1, h2, h3⟩

lemma csrfRun_inv (es : List CsrfEvent) : CsrfInv (csrfRun es) := by
  refine foldl_inv csrfStep CsrfInv csrfStep_inv es csrfInit ?_
  refine ⟨rfl, ?_, Or.inr ⟨rfl, rfl⟩⟩
  simp [csrfInit]

/-- C2. Along every event trace of the client, at most one CSRF refresh
fetch is in flight at any instant, and the start times of successive
refreshes triggered by the request interceptor are more than one
refresh interval (1000 ms) apart. -/
theorem csrf_single_flight_throttled (es : List CsrfEvent) :
    (csrfRun es).inFlight ≤ 1 ∧
    List.Chain' (fun a b => a + 1000 < b) (csrfRun es).startTimes := by
  obtain ⟨h1, h2, _⟩ := csrfRun_inv es
  refine ⟨?_, h2⟩
  rw [h1]
  split <;> omega

/-! ## Response classification (axios response error interceptor) -/

/-- What `error.response.data` looks like to the interceptor: a string
body or some non-string JSON value (only `typeof data === "string"`
matters to the classification). -/
inductive RespData where
  | strD (s : String)
  | nonStr
deriving DecidableEq, Repr

/-- The challenge markers hard-coded in the response interceptor of
src/lib/api/index.ts. -/
def cfMarkers : List String :=
  ["Just a moment...", "_cf_chl_opt", "challenge-platform",
   "cf-browser-verification"]

/-- `isCfChallenge` from the response interceptor: status 403 or 503,
string body, body includes one of the markers. -/
def isCfChallenge (status : Nat) (d : RespData) : Bool :=
  (status == 403 || status == 503) &&
    (match d with
     | .strD s => cfMarkers.any (fun m => containsSub s m)
     | .nonStr => false)

/-- The axios response error interceptor for an error that carries a
server response, translated from src/lib/api/index.ts lines 387-452:
first the bad-CSRF clear of the default `X-CSRF-Token` header, then the
Cloudflare-challenge classification, else an `HTTPError` carrying the
response status. (The `error instanceof HTTPError` branch is dead there:
the incoming value is an `AxiosError`.) Returns the new token state and
the thrown error. -/
def responseErrorInterceptor (tok : TokenState) (status : Nat)
    (d : RespData) : TokenState × JsError :=
  let tok' := if status == 403 && d == .strD "[\"BAD CSRF\"]"
              then TokenState.nullTok else tok
  if isCfChallenge status d then
    (tok', .challengeRequired)
  else
    (tok', .httpError status ("Request failed (status " ++ toString status ++ ")"))

/-- C3. The interceptor classifies an error response as the Cloudflare
challenge exactly when the status is 403 or 503, the body is a string,
and the body contains one of the four known challenge markers; every
other error response with a response object is thrown as an `HTTPError`
carrying the response status. -/
theorem challenge_classification_iff (tok : TokenState) (status : Nat)
    (d : RespData) :
    ((responseErrorInterceptor tok status d).2 = .challengeRequired ↔
      ((status = 403 ∨ status = 503) ∧ ∃ s, d = .strD s ∧
        (containsSub s "Just a moment..." = true ∨
         containsSub s "_cf_chl_opt" = true ∨
         containsSub s "challenge-platform" = true ∨
         containsSub s "cf-browser-verification" = true))) ∧
    ((responseErrorInterceptor tok status d).2 ≠ .challengeRequired →
      (responseErrorInterceptor tok status d).2 =
        .httpError status ("Request failed (status " ++ toString status ++ ")")) := by
  constructor
  · by_cases hc : isCfChallenge status d = true
    · simp only [responseErrorInterceptor, hc, if_true, true_iff]
      have hc' := hc
      simp only [isCfChallenge, Bool.and_eq_true, Bool.or_eq_true,
        beq_iff_eq] at hc'
      obtain ⟨hst, hbody⟩ := hc'
      refine ⟨hst, ?_⟩
      cases d with
      | strD s =>
          refine ⟨s, rfl, ?_⟩
          simpa [cfMarkers, or_assoc] using hbody
      | nonStr => simp at hbody
    · simp only [responseErrorInterceptor, hc, if_false]
      constructor
      · intro hcontra
        exact absurd hcontra (by simp)
      · rintro ⟨hst, s, rfl, hm⟩
        refine absurd (?_ : isCfChallenge status (.strD s) = true) hc
        simp only [isCfChallenge, cfMarkers, Bool.and_eq_true, Bool.or_eq_true,
          beq_iff_eq]
        refine ⟨hst, ?_⟩
        simpa [or_assoc] using hm
  · intro hne
    by_cases hc : isCfChallenge status d = true
    · exact absurd (by simp [responseErrorInterceptor, hc]) hne
    · simp [responseErrorInterceptor, hc]

/-- Witness for C3 at concrete inputs: a 403 with a marker body is
classified as the challenge, and a 404 string body is thrown as an
`HTTPError` with status 404. -/
theorem challenge_classification_iff_witness :
    (responseErrorInterceptor .undefTok 403
        (.strD "<html>Just a moment...</html>")).2 = .challengeRequired ∧
    (responseErrorInterceptor .undefTok 404 (.strD "not found")).2 =
      .httpError 404 ("Request failed (status " ++ toString 404 ++ ")") := by
  constructor
  · exact (challenge_classification_iff .undefTok 403
      (.strD "<html>Just a moment...</html>")).1.mpr
      ⟨Or.inl rfl, _, rfl, Or.inl (by decide)⟩
  · exact (challenge_classification_iff .undefTok 404 (.strD "not found")).2
      (by decide)

/-! ## A single axios call (C6) -/

/-- What the server does with one request. -/
inductive AxiosOutcome where
  | success (d : RespData) (csrfInBody : Option String)
  | failure (status : Nat) (d : RespData)
  | noResponse
deriving DecidableEq, Repr

/-- One `this.axiosInstance(requestConfig)` call: the request interceptor
runs (CSRF guard), then exactly one request is sent, then the response
or error interceptor runs. Translated from the interceptor pair in the
`DiscourseAPI` constructor; neither interceptor re-issues the request,
so the returned send count is the literal single send of the call.
Returns (new state, settled result, number of requests sent). -/
def axiosSend (s : CsrfState) (now : Int) (url : String)
    (outcome : AxiosOutcome) : CsrfState × Except JsError RespData × Nat :=
  let s1 := csrfStep s (.intercept now url)
  match outcome with
  | .success d csrfInBody =>
      match csrfInBody with
      | some tokv => (csrfStep s1 (.csrfTokenReceived tokv), .ok d, 1)
      | none => (s1, .ok d, 1)
  | .failure status d =>
      let r := responseErrorInterceptor s1.token status d
      ({ s1 with token := r.1 }, .error r.2, 1)
  | .noResponse => (s1, .error (.genericError "Network Error"), 1)

/-- C6. A call that receives the specific bad-CSRF response (403 with
body `["BAD CSRF"]`) clears the held token to `null`, sends exactly one
request (the interceptors never re-issue it), and fails with the
`HTTPError`; the next call's interceptor then starts exactly one
refresh, and a second concurrent call triggers no further refresh. -/
theorem bad_csrf_clears_token_single_refresh (s : CsrfState)
    (now t1 t2 : Int) (url u1 u2 : String) (tk : String)
    (htok : s.token = .tokenStr tk)
    (hng : s.isGettingCsrf = false)
    (hthr : s.lastCsrfAttempt + 1000 < t1)
    (hu1 : u1 ≠ "/session/csrf") :
    (axiosSend s now url (.failure 403 (.strD "[\"BAD CSRF\"]"))).1.token =
        .nullTok ∧
    (axiosSend s now url (.failure 403 (.strD "[\"BAD CSRF\"]"))).2.2 = 1 ∧
    (axiosSend s now url (.failure 403 (.strD "[\"BAD CSRF\"]"))).2.1 =
      .error (.httpError 403 ("Request failed (status " ++ toString 403 ++ ")")) ∧
    ((csrfStep (csrfStep
        (axiosSend s now url (.failure 403 (.strD "[\"BAD CSRF\"]"))).1
        (.intercept t1 u1)) (.intercept t2 u2)).startTimes.length =
      s.startTimes.length + 1) := by
  have hnn : s.token ≠ .nullTok := by rw [htok]; intro hcontra; cases hcontra
  have hint : csrfStep s (.intercept now url) = s := by
    simp [csrfStep, hnn]
  have hchal : isCfChallenge 403 (.strD "[\"BAD CSRF\"]") = false := by decide
  have hsend : axiosSend s now url (.failure 403 (.strD "[\"BAD CSRF\"]")) =
      ({ s with token := .nullTok },
        .error (.httpError 403 ("Request failed (status " ++ toString 403 ++ ")")),
        1) := by
    simp [axiosSend, hint, responseErrorInterceptor, hchal]
  rw [hsend]
  refine ⟨rfl, rfl, rfl, ?_⟩
  have hstep1 : csrfStep { s with token := TokenState.nullTok }
      (.intercept t1 u1) =
      { s with token := .undefTok, lastCsrfAttempt := t1
               isGettingCsrf := true, inFlight := s.inFlight + 1
               startTimes := s.startTimes ++ [t1] } := by
    simp [csrfStep, hu1, hng, hthr]
  rw [hstep1]
  have hstep2 : ∀ (s2 : CsrfState), s2.token = .undefTok →
      csrfStep s2 (.intercept t2 u2) = s2 := by
    intro s2 h2
    have : s2.token ≠ .nullTok := by rw [h2]; intro hcontra; cases hcontra
    simp [csrfStep, this]
  rw [hstep2 _ rfl]
  simp

/-- Witness for C6 at a concrete state and concrete times. -/
theorem bad_csrf_clears_token_single_refresh_witness :
    (axiosSend ⟨.tokenStr "abc", false, 0, 0, []⟩ 500 "/posts"
        (.failure 403 (.strD "[\"BAD CSRF\"]"))).1.token = .nullTok ∧
    (axiosSend ⟨.tokenStr "abc", false, 0, 0, []⟩ 500 "/posts"
        (.failure 403 (.strD "[\"BAD CSRF\"]"))).2.2 = 1 ∧
    (axiosSend ⟨.tokenStr "abc", false, 0, 0, []⟩ 500 "/posts"
        (.failure 403 (.strD "[\"BAD CSRF\"]"))).2.1 =
      .error (.httpError 403 ("Request failed (status " ++ toString 403 ++ ")")) ∧
    ((csrfStep (csrfStep
        (axiosSend ⟨.tokenStr "abc", false, 0, 0, []⟩ 500 "/posts"
          (.failure 403 (.strD "[\"BAD CSRF\"]"))).1
        (.intercept 2000 "/latest")) (.intercept 2001 "/top")).startTimes.length =
      ([] : List Int).length + 1) :=
  bad_csrf_clears_token_single_refresh ⟨.tokenStr "abc", false, 0, 0, []⟩
    500 2000 2001 "/posts" "/latest" "/top" "abc" rfl rfl (by decide)
    (by decide)

/-! ## Bridge transport (`useWebViewAPIStore`, src/unnamed/part_013)

Requests are identified by the value of `requestIdCounter` at creation
(`req_${++requestIdCounter}_...`), so issuance order is numeric order of
ids. `dispatched` records each `injectJavaScript` dispatch into the
browser context, `settled` each resolve/reject of a caller promise, and
`submitted` each `executeRequest` call — observations added to the
state, not code state. -/

structure WVState where
  isVisible : Bool
  currentRequest : Option Nat
  requestQueue : List Nat
  isReady : Bool
  requestIdCounter : Nat
  webViewAvailable : Bool
  pendingTimers : Nat
  dispatched : List Nat
  settled : List Nat
  submitted : List Nat
deriving DecidableEq, Repr

def wvInit (avail : Bool) : WVState :=
  { isVisible := false, currentRequest := none, requestQueue := []
    isReady := false, requestIdCounter := 0, webViewAvailable := avail
    pendingTimers := 0, dispatched := [], settled := [], submitted := [] }

/- `sendRequestToWebView` and `processNextRequest` call each other in
the source (the reject path of the former invokes the latter); the
mutual recursion is bounded because each round through
`processNextRequest` pops one queued request, so both are embedded with
an explicit fuel that the wrappers below instantiate with a sufficient
bound. -/
mutual

def sendRequestToWebViewF : Nat → WVState → Nat → WVState
  | 0, s, _ => s
  | fuel + 1, s, r =>
      if s.webViewAvailable then
        { s with dispatched := s.dispatched ++ [r] }
      else
        processNextRequestF fuel { s with settled := s.settled ++ [r] }

def processNextRequestF : Nat → WVState → WVState
  | 0, s => s
  | fuel + 1, s =>
      if s.currentRequest.isSome || !s.isReady || s.requestQueue.isEmpty then
        s
      else
        match s.requestQueue with
        | [] => s
        | q :: rest =>
            sendRequestToWebViewF fuel
              { s with currentRequest := some q, requestQueue := rest } q

end

def sendRequestToWebView (s : WVState) (r : Nat) : WVState :=
  sendRequestToWebViewF (2 * s.requestQueue.length + 2) s r

def processNextRequest (s : WVState) : WVState :=
  processNextRequestF (2 * s.requestQueue.length + 2) s

def showWebViewS (s : WVState) : WVState := { s with isVisible := true }

def hideWebViewS (s : WVState) : WVState := { s with isVisible := false }

/-- `setReady`: stores the flag and, when becoming ready, schedules
`processNextRequest` through a 500 ms `setTimeout` (part_013 lines
64-74). The deferred callback does NOT run here: `pendingTimers` counts
the scheduled callbacks and the separate `timerFired` event runs one of
them at an arbitrary later step, so the window in which the store is
ready with an idle current slot but a non-empty queue is representable. -/
def setReadyS (s : WVState) (b : Bool) : WVState :=
  let s1 := { s with isReady := b }
  if b then { s1 with pendingTimers := s1.pendingTimers + 1 } else s1

/-- A scheduled `setTimeout(() => processNextRequest(), 500)` callback
firing. -/
def timerFiredS (s : WVState) : WVState :=
  if 0 < s.pendingTimers then
    processNextRequest { s with pendingTimers := s.pendingTimers - 1 }
  else s

/-- `executeRequest`: a fresh id is allocated; if no request is current
and the WebView is ready the request becomes current and is dispatched,
otherwise it is appended to the queue. -/
def executeRequestS (s : WVState) : WVState :=
  let rid := s.requestIdCounter + 1
  let s0 := { s with requestIdCounter := rid, submitted := s.submitted ++ [rid] }
  if s0.currentRequest.isNone && s0.isReady then
    sendRequestToWebView { s0 with currentRequest := some rid } rid
  else
    { s0 with requestQueue := s0.requestQueue ++ [rid] }

/-- The inbound messages of the bridge protocol. -/
inductive WVMsg where
  | apiResponse (reqId : Nat) (isChallenge : Bool)
  | apiError (reqId : Nat)
  | pageLoaded (isChallengePage : Bool)
deriving DecidableEq, Repr

/-- `handleWebViewMessage`, translated branch by branch. On a challenge
response the current request is neither resolved nor rejected and stays
current; on `page_loaded` of a non-challenge page the store becomes
ready and, when the verification WebView was visible, the current
request is re-dispatched. -/
def handleWebViewMessageS (s : WVState) : WVMsg → WVState
  | .apiResponse reqId isChallenge =>
      match s.currentRequest with
      | some cur =>
          if reqId = cur then
            if isChallenge then showWebViewS s
            else
              processNextRequest
                { s with settled := s.settled ++ [cur], currentRequest := none }
          else s
      | none => s
  | .apiError reqId =>
      match s.currentRequest with
      | some cur =>
          if reqId = cur then
            processNextRequest
              { s with settled := s.settled ++ [cur], currentRequest := none }
          else s
      | none => s
  | .pageLoaded isChallengePage =>
      let vis := s.isVisible
      let cur := s.currentRequest
      let s1 := if isChallengePage = false then setReadyS s true else s
      if vis && !isChallengePage then
        let s2 := hideWebViewS s1
        match cur with
        | some r => sendRequestToWebView s2 r
        | none => s2
      else s1

/-- The entry points of the store that outside code invokes, plus the
firing of a deferred `setReady` timer. -/
inductive WVEvent where
  | execute
  | msg (m : WVMsg)
  | setReadyEv (b : Bool)
  | timerFired
  | showEv
  | hideEv
deriving DecidableEq, Repr

def wvStep (s : WVState) : WVEvent → WVState
  | .execute => executeRequestS s
  | .msg m => handleWebViewMessageS s m
  | .setReadyEv b => setReadyS s b
  | .timerFired => timerFiredS s
  | .showEv => showWebViewS s
  | .hideEv => hideWebViewS s

def wvRun (avail : Bool) (es : List WVEvent) : WVState :=
  es.foldl wvStep (wvInit avail)

lemma sendF_avail (fuel : Nat) (s : WVState) (r : Nat)
    (h : s.webViewAvailable = true) :
    sendRequestToWebViewF (fuel + 1) s r =
      { s with dispatched := s.dispatched ++ [r] } := by
  simp [sendRequestToWebViewF, h]

lemma send_avail (s : WVState) (r : Nat) (h : s.webViewAvailable = true) :
    sendRequestToWebView s r = { s with dispatched := s.dispatched ++ [r] } := by
  show sendRequestToWebViewF (2 * s.requestQueue.length + 1 + 1) s r = _
  exact sendF_avail _ s r h

lemma pn_current (s : WVState) (h : s.currentRequest.isSome = true) :
    processNextRequest s = s := by
  show processNextRequestF (2 * s.requestQueue.length + 1 + 1) s = s
  simp [processNextRequestF, h]

lemma pn_notReady (s : WVState) (h : s.isReady = false) :
    processNextRequest s = s := by
  show processNextRequestF (2 * s.requestQueue.length + 1 + 1) s = s
  simp [processNextRequestF, h]

lemma pn_empty (s : WVState) (h : s.requestQueue = []) :
    processNextRequest s = s := by
  show processNextRequestF (2 * s.requestQueue.length + 1 + 1) s = s
  simp [processNextRequestF, h]

lemma pn_pop (s : WVState) (q : Nat) (rest : List Nat)
    (havail : s.webViewAvailable = true)
    (hc : s.currentRequest = none) (hr : s.isReady = true)
    (hq : s.requestQueue = q :: rest) :
    processNextRequest s =
      { s with currentRequest := some q, requestQueue := rest
               dispatched := s.dispatched ++ [q] } := by
  show processNextRequestF (2 * s.requestQueue.length + 1 + 1) s = _
  rw [processNextRequestF]
  rw [if_neg (by simp [hc, hr, hq])]
  rcases s with ⟨v, c, qq, rd, n, av, d, st, sb⟩
  simp only at hq havail hc hr
  subst hq hc
  have hf : 2 * (q :: rest).length + 1 = 2 * rest.length + 2 + 1 := by
    simp [List.length_cons]; omega
  rw [hf]
  exact sendF_avail _ _ _ havail

/-- Invariant of the bridge store: the WebView ref is available; the
settled log, the current slot and the queue together hold each
submitted id exactly once (they are a permutation of the submitted
ids); the ids are the counter values `1..requestIdCounter` in issuance
order; and the queue itself preserves issuance order (it is a
subsequence of the submitted ids). Global FIFO does NOT hold: during
the 500 ms window between `setReady(true)` and its deferred
`processNextRequest`, a newly executed request bypasses a non-empty
queue (see the C1 counterexample below). -/
def WVInv (s : WVState) : Prop :=
  s.webViewAvailable = true ∧
  (s.settled ++ s.currentRequest.toList ++ s.requestQueue).Perm s.submitted ∧
  s.submitted = List.range' 1 s.requestIdCounter ∧
  s.requestQueue.Sublist s.submitted

lemma inv_processNext (t : WVState) (h : WVInv t) :
    WVInv (processNextRequest t) := by
  obtain ⟨hav, hP, hR, hQ⟩ := h
  cases hc : t.currentRequest with
  | some c =>
      rw [pn_current t (by simp [hc])]
      exact ⟨hav, hP, hR, hQ⟩
  | none =>
      cases hr : t.isReady with
      | false =>
          rw [pn_notReady t hr]
          exact ⟨hav, hP, hR, hQ⟩
      | true =>
          cases hq : t.requestQueue with
          | nil =>
              rw [pn_empty t hq]
              exact ⟨hav, hP, hR, hQ⟩
          | cons q rest =>
              rw [pn_pop t q rest hav hc hr hq]
              rw [hc, hq] at hP
              rw [hq] at hQ
              refine ⟨hav, ?_, hR, ?_⟩
              · simpa using hP
              · exact (List.sublist_cons_self q rest).trans hQ

lemma inv_settle_pop (s : WVState) (cur : Nat)
    (h : WVInv s) (hcur : s.currentRequest = some cur) :
    WVInv (processNextRequest
      { s with settled := s.settled ++ [cur], currentRequest := none }) := by
  obtain ⟨hav, hP, hR, hQ⟩ := h
  refine inv_processNext _ ⟨hav, ?_, hR, hQ⟩
  rw [hcur] at hP
  simpa [List.append_assoc] using hP

lemma inv_setReady (s : WVState) (b : Bool) (h : WVInv s) :
    WVInv (setReadyS s b) := by
  obtain ⟨hav, hP, hR, hQ⟩ := h
  cases b
  · exact ⟨hav, hP, hR, hQ⟩
  · exact ⟨hav, hP, hR, hQ⟩

lemma inv_timer (s : WVState) (h : WVInv s) : WVInv (timerFiredS s) := by
  obtain ⟨hav, hP, hR, hQ⟩ := h
  by_cases hp : 0 < s.pendingTimers
  · have hstep : timerFiredS s =
        processNextRequest { s with pendingTimers := s.pendingTimers - 1 } := by
      simp [timerFiredS, hp]
    rw [hstep]
    exact inv_processNext _ ⟨hav, hP, hR, hQ⟩
  · have hstep : timerFiredS s = s := by
      simp [timerFiredS, hp]
    rw [hstep]
    exact ⟨hav, hP, hR, hQ⟩

lemma inv_execute (s : WVState) (h : WVInv s) : WVInv (executeRequestS s) := by
  obtain ⟨hav, hP, hR, hQ⟩ := h
  rcases s with ⟨v, c, qq, rd, n, av, pt, d, st, sb⟩
  dsimp only at hav hP hR hQ
  have hrange : sb ++ [n + 1] = List.range' 1 (n + 1) := by
    have := @List.range'_concat 1 1 n
    simp only [one_mul] at this
    rw [hR, this, Nat.add_comm 1 n]
  have hsb : List.Sublist sb (sb ++ [n + 1]) := List.sublist_append_left sb _
  cases c with
  | none =>
      simp only [Option.toList_none, List.nil_append, List.append_nil] at hP
      cases rd with
      | true =>
          have hstep : executeRequestS ⟨v, none, qq, true, n, av, pt, d, st, sb⟩ =
              ⟨v, some (n + 1), qq, true, n + 1, av, pt, d ++ [n + 1], st,
                sb ++ [n + 1]⟩ := by
            simp only [executeRequestS, Option.isNone_none, Bool.and_self,
              if_true]
            exact send_avail
              ⟨v, some (n + 1), qq, true, n + 1, av, pt, d, st, sb ++ [n + 1]⟩
              (n + 1) hav
          rw [hstep]
          refine ⟨hav, ?_, hrange, hQ.trans hsb⟩
          have h1 : (st ++ ([n + 1] ++ qq)).Perm (st ++ (qq ++ [n + 1])) :=
            List.Perm.append_left st List.perm_append_comm
          have h2 : ((st ++ qq) ++ [n + 1]).Perm (sb ++ [n + 1]) :=
            hP.append_right [n + 1]
          have hgoal : ((st ++ [n + 1]) ++ qq).Perm (sb ++ [n + 1]) := by
            rw [List.append_assoc]
            refine h1.trans ?_
            rw [← List.append_assoc]
            exact h2
          simpa using hgoal
      | false =>
          have hstep : executeRequestS ⟨v, none, qq, false, n, av, pt, d, st, sb⟩ =
              ⟨v, none, qq ++ [n + 1], false, n + 1, av, pt, d, st,
                sb ++ [n + 1]⟩ := by
            simp [executeRequestS]
          rw [hstep]
          refine ⟨hav, ?_, hrange, hQ.append (List.Sublist.refl [n + 1])⟩
          have h2 : ((st ++ qq) ++ [n + 1]).Perm (sb ++ [n + 1]) :=
            hP.append_right [n + 1]
          simpa [List.append_assoc] using h2
  | some cur =>
      have hstep : executeRequestS ⟨v, some cur, qq, rd, n, av, pt, d, st, sb⟩ =
          ⟨v, some cur, qq ++ [n + 1], rd, n + 1, av, pt, d, st,
            sb ++ [n + 1]⟩ := by
        simp [executeRequestS]
      rw [hstep]
      refine ⟨hav, ?_, hrange, hQ.append (List.Sublist.refl [n + 1])⟩
      have h2 : ((st ++ (some cur).toList ++ qq) ++ [n + 1]).Perm
          (sb ++ [n + 1]) := hP.append_right [n + 1]
      simpa [List.append_assoc] using h2

lemma inv_msg (s : WVState) (m : WVMsg) (h : WVInv s) :
    WVInv (handleWebViewMessageS s m) := by
  cases m with
  | apiResponse reqId isChallenge =>
      cases hc : s.currentRequest with
      | none =>
          have hstep : handleWebViewMessageS s (.apiResponse reqId isChallenge)
              = s := by
            simp [handleWebViewMessageS, hc]
          rw [hstep]; exact h
      | some cur =>
          by_cases hid : reqId = cur
          · cases isChallenge with
            | true =>
                have hstep : handleWebViewMessageS s (.apiResponse reqId true) =
                    showWebViewS s := by
                  simp [handleWebViewMessageS, hc, hid]
                rw [hstep]
                obtain ⟨hav, hP, hR, hQ⟩ := h
                exact ⟨hav, hP, hR, hQ⟩
            | false =>
                have hstep : handleWebViewMessageS s (.apiResponse reqId false) =
                    processNextRequest
                      { s with settled := s.settled ++ [cur]
                               currentRequest := none } := by
                  simp [handleWebViewMessageS, hc, hid]
                rw [hstep]
                exact inv_settle_pop s cur h hc
          · have hstep : handleWebViewMessageS s (.apiResponse reqId isChallenge)
                = s := by
              simp [handleWebViewMessageS, hc, hid]
            rw [hstep]; exact h
  | apiError reqId =>
      cases hc : s.currentRequest with
      | none =>
          have hstep : handleWebViewMessageS s (.apiError reqId) = s := by
            simp [handleWebViewMessageS, hc]
          rw [hstep]; exact h
      | some cur =>
          by_cases hid : reqId = cur
          · have hstep : handleWebViewMessageS s (.apiError reqId) =
                processNextRequest
                  { s with settled := s.settled ++ [cur]
                           currentRequest := none } := by
              simp [handleWebViewMessageS, hc, hid]
            rw [hstep]
            exact inv_settle_pop s cur h hc
          · have hstep : handleWebViewMessageS s (.apiError reqId) = s := by
              simp [handleWebViewMessageS, hc, hid]
            rw [hstep]; exact h
  | pageLoaded cp =>
      cases cp with
      | true =>
          have hstep : handleWebViewMessageS s (.pageLoaded true) = s := by
            simp [handleWebViewMessageS]
          rw [hstep]; exact h
      | false =>
          cases hv : s.isVisible with
          | false =>
              have hstep : handleWebViewMessageS s (.pageLoaded false) =
                  setReadyS s true := by
                simp [handleWebViewMessageS, hv]
              rw [hstep]
              exact inv_setReady s true h
          | true =>
              cases hc : s.currentRequest with
              | none =>
                  have hstep : handleWebViewMessageS s (.pageLoaded false) =
                      hideWebViewS (setReadyS s true) := by
                    simp [handleWebViewMessageS, hv, hc]
                  rw [hstep]
                  obtain ⟨hav, hP, hR, hQ⟩ := inv_setReady s true h
                  exact ⟨hav, hP, hR, hQ⟩
              | some r =>
                  have hstep : handleWebViewMessageS s (.pageLoaded false) =
                      sendRequestToWebView (hideWebViewS (setReadyS s true))
                        r := by
                    simp [handleWebViewMessageS, hv, hc]
                  have h2 : hideWebViewS (setReadyS s true) =
                      { s with isReady := true
                               pendingTimers := s.pendingTimers + 1
                               isVisible := false } := rfl
                  obtain ⟨hav, hP, hR, hQ⟩ := h
                  rw [hstep, h2,
                    send_avail { s with isReady := true
                                        pendingTimers := s.pendingTimers + 1
                                        isVisible := false } r hav]
                  exact ⟨hav, hP, hR, hQ⟩

lemma inv_wvStep (s : WVState) (e : WVEvent) (h : WVInv s) :
    WVInv (wvStep s e) := by
  cases e with
  | execute => exact inv_execute s h
  | msg m => exact inv_msg s m h
  | setReadyEv b => exact inv_setReady s b h
  | timerFired => exact inv_timer s h
  | showEv =>
      obtain ⟨hav, hP, hR, hQ⟩ := h
      exact ⟨hav, hP, hR, hQ⟩
  | hideEv =>
      obtain ⟨hav, hP, hR, hQ⟩ := h
      exact ⟨hav, hP, hR, hQ⟩

lemma wvRun_inv (es : List WVEvent) : WVInv (wvRun true es) := by
  refine foldl_inv wvStep WVInv inv_wvStep es (wvInit true) ?_
  exact ⟨rfl, List.Perm.refl _, rfl, List.Sublist.refl _⟩

/-- C1, counterexample to the claim as stated. `setReady(true)` defers
`processNextRequest` by a 500 ms `setTimeout`; a request executed in
that window while two older requests are still queued finds an idle
current slot and a ready store and is dispatched immediately, ahead of
the queue. Requests 1 and 2 are submitted before request 3, yet the
browser context receives — and the callers' promises settle — in the
order 3, 1, 2: dispatch and resolution order violate issuance order. -/
theorem bridge_fifo_cex :
    (wvRun true [.execute, .execute, .setReadyEv true, .execute, .timerFired,
      .msg (.apiResponse 3 false), .msg (.apiResponse 1 false),
      .msg (.apiResponse 2 false)]).submitted = [1, 2, 3] ∧
    (wvRun true [.execute, .execute, .setReadyEv true, .execute, .timerFired,
      .msg (.apiResponse 3 false), .msg (.apiResponse 1 false),
      .msg (.apiResponse 2 false)]).dispatched = [3, 1, 2] ∧
    (wvRun true [.execute, .execute, .setReadyEv true, .execute, .timerFired,
      .msg (.apiResponse 3 false), .msg (.apiResponse 1 false),
      .msg (.apiResponse 2 false)]).settled = [3, 1, 2] := by
  decide

/-- C1, amended. Along every event trace of the bridge store (WebView
ref available): at most one request is current — hence at most one in
flight — at any time; each id issued by `executeRequest` (the counter
values `1..requestIdCounter`) is tracked exactly once, the settled log,
the current slot and the queue together being a permutation of the
submitted ids; and the queue itself preserves issuance order. Strict
FIFO across the whole transport does not hold: a request submitted
during the deferred-ready window bypasses older queued requests (see
the counterexample). -/
theorem bridge_fifo_amended (es : List WVEvent) :
    (wvRun true es).currentRequest.toList.length ≤ 1 ∧
    ((wvRun true es).settled ++ (wvRun true es).currentRequest.toList ++
        (wvRun true es).requestQueue).Perm (wvRun true es).submitted ∧
    (wvRun true es).submitted =
      List.range' 1 (wvRun true es).requestIdCounter ∧
    List.Sublist (wvRun true es).requestQueue (wvRun true es).submitted := by
  obtain ⟨_, hP, hR, hQ⟩ := wvRun_inv es
  refine ⟨?_, hP, hR, hQ⟩
  cases (wvRun true es).currentRequest <;> simp
/-- A `page_loaded` message for a challenge page changes nothing: the
store does not become ready and no retry fires. -/
lemma pageLoaded_true_noop (s : WVState) :
    handleWebViewMessageS s (.pageLoaded true) = s := by
  simp [handleWebViewMessageS]

lemma run_append_noops (es : List WVEvent) (n : Nat) :
    wvRun true (es ++ List.replicate n (.msg (.pageLoaded true))) =
      wvRun true es := by
  rw [wvRun, List.foldl_append]
  have haux : ∀ (k : Nat) (s : WVState),
      List.foldl wvStep s (List.replicate k (.msg (.pageLoaded true))) = s := by
    intro k
    induction k with
    | zero => intro s; rfl
    | succ k ih =>
        intro s
        rw [List.replicate_succ, List.foldl_cons]
        rw [show wvStep s (.msg (.pageLoaded true)) = s from
          pageLoaded_true_noop s]
        exact ih s
  exact haux n _

/-- C4, counterexample. The claim asserts a bounded timeout: some bound
N of further steps after which a bridge call blocked on an unresolved
challenge has failed. In the code there is no such timeout: after the
challenge response, any number of further challenge-page loads leaves
the caller's promise unsettled, so no bound exists. -/
theorem bridge_challenge_no_timeout_cex :
    ¬ ∃ N : Nat, ∀ n : Nat, N ≤ n →
      1 ∈ (wvRun true ([.setReadyEv true, .execute,
            .msg (.apiResponse 1 true)] ++
          List.replicate n (.msg (.pageLoaded true)))).settled := by
  rintro ⟨N, hN⟩
  have h := hN N le_rfl
  rw [run_append_noops] at h
  have hempty : (wvRun true [.setReadyEv true, .execute,
      .msg (.apiResponse 1 true)]).settled = [] := by decide
  rw [hempty] at h
  cases h

/-- C4, amended. A bridge call that triggered the challenge stays
unsettled while the challenge is pending, and there is no timeout: for
every number `n` of further steps on which the challenge stays
unresolved, the request is still current, nothing is settled, and the
verification WebView is still showing. -/
theorem bridge_challenge_unsettled_forever (n : Nat) :
    (wvRun true ([.setReadyEv true, .execute,
        .msg (.apiResponse 1 true)] ++
      List.replicate n (.msg (.pageLoaded true)))).settled = [] ∧
    (wvRun true ([.setReadyEv true, .execute,
        .msg (.apiResponse 1 true)] ++
      List.replicate n (.msg (.pageLoaded true)))).currentRequest = some 1 ∧
    (wvRun true ([.setReadyEv true, .execute,
        .msg (.apiResponse 1 true)] ++
      List.replicate n (.msg (.pageLoaded true)))).isVisible = true := by
  rw [run_append_noops]
  exact ⟨by decide, by decide, by decide⟩

/-! ## Operation dispatch (`DiscourseAPI._exec`, src/lib/api/index.ts)

`_exec` partitions the caller-supplied `params` record into header,
query, path and body buckets according to the operation descriptor,
rejects leftovers, substitutes the path template and routes the request.
A JavaScript record is embedded as an association list with distinct
keys; deleting a key is filtering it out. -/

inductive ParamLoc where
  | headerLoc
  | queryLoc
  | pathLoc
deriving DecidableEq, Repr

structure OpParam where
  name : String
  loc : ParamLoc
deriving DecidableEq, Repr

/-- The shape of `content[type].schema` as far as `_exec` looks at it:
absent, present without `properties`, or with a `properties` key list. -/
inductive SchemaRep where
  | noSchema
  | noProps
  | withProps (props : List String)
deriving DecidableEq, Repr

/-- One entry of `byOperationId`: method, path template, the declared
parameters (JavaScript distinguishes an absent `parameters` field from
an empty array, hence the `Option`), and the `requestBody.content`
map. -/
structure OperationData where
  methodStr : String
  pathTemplate : String
  parameters : Option (List OpParam)
  requestBodyContent : Option (List (String × SchemaRep))
deriving DecidableEq, Repr

def lookupP (ps : List (String × String)) (n : String) : Option String :=
  (ps.find? (fun kv => kv.1 == n)).map (·.2)

def removeP (ps : List (String × String)) (n : String) :
    List (String × String) :=
  ps.filter (fun kv => kv.1 != n)

/-- The four buckets built by `_exec` plus the not-yet-consumed keys of
`params`. -/
structure PartState where
  header : List (String × String)
  query : List (String × String)
  pathB : List (String × String)
  remaining : List (String × String)
deriving DecidableEq, Repr

/-- One iteration of the declared-parameter loop of `_exec`: a declared
parameter present in `params` moves into its location bucket and is
deleted from `params`. -/
def mdStep (st : PartState) (p : OpParam) : PartState :=
  match lookupP st.remaining p.name with
  | some v =>
      match p.loc with
      | .headerLoc =>
          { st with header := st.header ++ [(p.name, v)]
                    remaining := removeP st.remaining p.name }
      | .queryLoc =>
          { st with query := st.query ++ [(p.name, v)]
                    remaining := removeP st.remaining p.name }
      | .pathLoc =>
          { st with pathB := st.pathB ++ [(p.name, v)]
                    remaining := removeP st.remaining p.name }
  | none => st

/-- The declared-parameter loop of `_exec`. -/
def moveDeclared (declared : List OpParam) (ps : List (String × String)) :
    PartState :=
  declared.foldl mdStep
    { header := [], query := [], pathB := [], remaining := ps }

/-- The `parameters` phase of `_exec`: absent `parameters` with a
non-empty `params` record is an error. -/
def partitionOf (opName : String) (op : OperationData)
    (ps : List (String × String)) : Except JsError PartState :=
  match op.parameters with
  | some declared => .ok (moveDeclared declared ps)
  | none =>
      if ps.isEmpty then .ok { header := [], query := [], pathB := [], remaining := ps }
      else .error (.genericError (opName ++ " accepts no parameters"))

/-- One iteration of the body-property loop of `_exec`: a schema
property present in `params` moves into the body bucket (first
component) and is deleted from `params` (second component). -/
def bodyStep (acc : List (String × String) × List (String × String))
    (prop : String) : List (String × String) × List (String × String) :=
  match lookupP acc.2 prop with
  | some v => (acc.1 ++ [(prop, v)], removeP acc.2 prop)
  | none => acc

/-- The `requestBody` phase of `_exec`: exactly one content type with a
`properties` schema; its properties move from `params` into the body
bucket; `application/json` sets a Content-Type, `multipart/form-data`
builds a `FormData`. Returns (remaining params, body bucket,
Content-Type header value, isForm). -/
def bodyOf (opName : String) (op : OperationData) (st : PartState) :
    Except JsError
      (List (String × String) × List (String × String) × Option String × Bool) :=
  match op.requestBodyContent with
  | none => .ok (st.remaining, [], none, false)
  | some content =>
      if content.length = 0 then
        .error (.genericError ("No requestBody content types for " ++ opName))
      else if 1 < content.length then
        .error (.genericError
          "Multiple requestBody content types not supported, please report")
      else
        match content.head? with
        | none =>
            .error (.genericError ("No requestBody content types for " ++ opName))
        | some (ty, sch) =>
            match sch with
            | .noSchema => .error (.genericError ("No schema for " ++ opName))
            | .noProps =>
                .error (.genericError ("Unexpected schema for " ++ opName))
            | .withProps props =>
                let moved := props.foldl bodyStep ([], st.remaining)
                if ty = "application/json" then
                  .ok (moved.2, moved.1, some "application/json", false)
                else if ty = "multipart/form-data" then
                  .ok (moved.2, moved.1, none, true)
                else
                  .error (.genericError
                    ("Unexpected requestBody content type for " ++ opName))

/-- Path-template substitution, the embedding of
`operation.path.replace(/\x7b([^\x7d]+)\x7d/g, (_, p) => path[p] || ...)`:
a maximal run of non-closing-brace characters between braces is a
placeholder name; a placeholder whose path parameter is absent or the
empty string (falsy) is reproduced verbatim. The second argument
carries the characters of a partially read placeholder name (reversed),
`none` outside a placeholder. -/
def substChars (pathB : List (String × String)) :
    List Char → Option (List Char) → List Char
  | [], none => []
  | [], some acc => '{' :: acc.reverse
  | c :: rest, none =>
      if c = '{' then substChars pathB rest (some [])
      else c :: substChars pathB rest none
  | c :: rest, some acc =>
      if c = '}' then
        if acc.isEmpty then
          '{' :: '}' :: substChars pathB rest none
        else
          (match lookupP pathB (String.mk acc.reverse) with
           | some v =>
               if v = "" then '{' :: (acc.reverse ++ ['}']) else v.data
           | none => '{' :: (acc.reverse ++ ['}'])) ++
            substChars pathB rest none
      else substChars pathB rest (some (c :: acc))

def substitutePath (pathB : List (String × String)) (template : String) :
    String :=
  String.mk (substChars pathB template.data none)

/-- The transport-neutral request `_exec` builds before sending. -/
structure BuiltRequest where
  methodStr : String
  url : String
  header : List (String × String)
  query : List (String × String)
  body : List (String × String)
  isForm : Bool
deriving DecidableEq, Repr

/-- The request-building part of `_exec` (lookup is done by the caller;
`op` is the table entry): partition declared parameters, process the
body schema, reject leftover keys with the unknown-parameter `Error`,
set the Content-Type header, substitute the path template. -/
def buildRequest (opName : String) (op : OperationData)
    (ps : List (String × String)) : Except JsError BuiltRequest :=
  match partitionOf opName op ps with
  | .error e => .error e
  | .ok st =>
      match bodyOf opName op st with
      | .error e => .error e
      | .ok (rem, body, ct, isForm) =>
          if rem.isEmpty then
            let header := match ct with
              | some c => st.header ++ [("Content-Type", c)]
              | none => st.header
            .ok { methodStr := op.methodStr
                  url := substitutePath st.pathB op.pathTemplate
                  header := header, query := st.query, body := body
                  isForm := isForm }
          else
            .error (.genericError ("Unknown parameter(s) for " ++ opName ++
              ": " ++ String.intercalate ", " (rem.map (·.1))))

/-- The names an operation declares: its parameters plus the properties
of its (single) body schema. -/
def declaredNames (op : OperationData) : List String :=
  (op.parameters.getD []).map (·.name) ++
    (match op.requestBodyContent with
     | some ((_, .withProps props) :: _) => props
     | _ => [])

lemma mdStep_buckets (P : String → Prop) :
    ∀ (l : List OpParam) (st : PartState),
      (∀ p ∈ l, P p.name) →
      (∀ kv ∈ st.header, P kv.1) → (∀ kv ∈ st.query, P kv.1) →
      (∀ kv ∈ st.pathB, P kv.1) →
      (∀ kv ∈ (l.foldl mdStep st).header, P kv.1) ∧
      (∀ kv ∈ (l.foldl mdStep st).query, P kv.1) ∧
      (∀ kv ∈ (l.foldl mdStep st).pathB, P kv.1) := by
  intro l
  induction l with
  | nil =>
      intro st _ h1 h2 h3
      exact ⟨h1, h2, h3⟩
  | cons p l ih =>
      intro st hl h1 h2 h3
      rw [List.foldl_cons]
      have hp : P p.name := hl p (List.mem_cons_self p l)
      have hl' : ∀ q ∈ l, P q.name := fun q hq => hl q (List.mem_cons_of_mem p hq)
      refine ih (mdStep st p) hl' ?_ ?_ ?_ <;>
        · intro kv hkv
          rw [mdStep] at hkv
          rcases hlk : lookupP st.remaining p.name with _ | v <;>
            rw [hlk] at hkv
          · first
              | exact h1 kv hkv
              | exact h2 kv hkv
              | exact h3 kv hkv
          · cases hloc : p.loc <;> rw [hloc] at hkv <;>
              simp only [List.mem_append, List.mem_singleton] at hkv <;>
              first
                | (rcases hkv with hkv | hkv
                   · first
                       | exact h1 kv hkv
                       | exact h2 kv hkv
                       | exact h3 kv hkv
                   · rw [hkv]; exact hp)
                | (first
                     | exact h1 kv hkv
                     | exact h2 kv hkv
                     | exact h3 kv hkv)

lemma bodyStep_names (P : String → Prop) :
    ∀ (props : List String)
      (acc : List (String × String) × List (String × String)),
      (∀ p ∈ props, P p) → (∀ kv ∈ acc.1, P kv.1) →
      ∀ kv ∈ (props.foldl bodyStep acc).1, P kv.1 := by
  intro props
  induction props with
  | nil => intro acc _ hacc; exact hacc
  | cons p props ih =>
      intro acc hl hacc
      rw [List.foldl_cons]
      have hp : P p := hl p (List.mem_cons_self p props)
      have hl' : ∀ q ∈ props, P q := fun q hq => hl q (List.mem_cons_of_mem p hq)
      refine ih (bodyStep acc p) hl' ?_
      intro kv hkv
      rw [bodyStep] at hkv
      rcases hlk : lookupP acc.2 p with _ | v <;> rw [hlk] at hkv
      · exact hacc kv hkv
      · simp only [List.mem_append, List.mem_singleton] at hkv
        rcases hkv with hkv | hkv
        · exact hacc kv hkv
        · rw [hkv]; exact hp

lemma partitionOf_buckets (opName : String) (op : OperationData)
    (ps : List (String × String)) (st : PartState)
    (h : partitionOf opName op ps = .ok st) :
    (∀ kv ∈ st.header, kv.1 ∈ (op.parameters.getD []).map OpParam.name) ∧
    (∀ kv ∈ st.query, kv.1 ∈ (op.parameters.getD []).map OpParam.name) ∧
    (∀ kv ∈ st.pathB, kv.1 ∈ (op.parameters.getD []).map OpParam.name) := by
  rcases hpar : op.parameters with _ | declared <;>
    rw [partitionOf, hpar] at h
  · rcases hps : ps.isEmpty <;> rw [hps] at h
    · cases h
    · simp only [if_true, Except.ok.injEq] at h
      subst h
      refine ⟨?_, ?_, ?_⟩ <;> intro kv hkv <;> cases hkv
  · simp only [Except.ok.injEq] at h
    subst h
    have := mdStep_buckets (fun n => n ∈ declared.map OpParam.name) declared
      { header := [], query := [], pathB := [], remaining := ps }
      (fun p hp => List.mem_map_of_mem OpParam.name hp)
      (fun kv hkv => by cases hkv) (fun kv hkv => by cases hkv)
      (fun kv hkv => by cases hkv)
    simpa [moveDeclared, hpar] using this

lemma bodyOf_names (opName : String) (op : OperationData) (st : PartState)
    (rem body : List (String × String)) (ct : Option String) (isForm : Bool)
    (h : bodyOf opName op st = .ok (rem, body, ct, isForm)) :
    ∀ kv ∈ body, kv.1 ∈
      (match op.requestBodyContent with
       | some ((_, .withProps props) :: _) => props
       | _ => []) := by
  rcases hcon : op.requestBodyContent with _ | content <;>
    rw [bodyOf, hcon] at h
  · simp only [Except.ok.injEq, Prod.mk.injEq] at h
    obtain ⟨_, hbody, _⟩ := h
    intro kv hkv
    rw [← hbody] at hkv
    cases hkv
  · rcases content with _ | ⟨⟨ty, sch⟩, rest⟩
    · simp at h
    · dsimp only at h ⊢
      by_cases hlen : 1 < ((⟨ty, sch⟩ :: rest) : List (String × SchemaRep)).length
      · rw [if_neg (by simp), if_pos hlen] at h
        cases h
      · rw [if_neg (by simp), if_neg hlen] at h
        simp only [List.head?_cons] at h
        cases sch with
        | noSchema => cases h
        | noProps => cases h
        | withProps props =>
            simp only at h
            have hb : body = (props.foldl bodyStep ([], st.remaining)).1 := by
              by_cases hjson : ty = "application/json"
              · rw [if_pos hjson] at h
                simp only [Except.ok.injEq, Prod.mk.injEq] at h
                exact h.2.1.symm
              · rw [if_neg hjson] at h
                by_cases hmp : ty = "multipart/form-data"
                · rw [if_pos hmp] at h
                  simp only [Except.ok.injEq, Prod.mk.injEq] at h
                  exact h.2.1.symm
                · rw [if_neg hmp] at h
                  cases h
            intro kv hkv
            rw [hb] at hkv
            exact bodyStep_names (fun n => n ∈ props) props ([], st.remaining)
              (fun p hp => hp) (fun kv hkv => by cases hkv) kv hkv

lemma buildRequest_ok_inv (opName : String) (op : OperationData)
    (ps : List (String × String)) (req : BuiltRequest)
    (h : buildRequest opName op ps = .ok req) :
    ∃ st rem body ct isForm,
      partitionOf opName op ps = .ok st ∧
      bodyOf opName op st = .ok (rem, body, ct, isForm) ∧
      rem.isEmpty = true ∧
      req.header = (match ct with
        | some c => st.header ++ [("Content-Type", c)]
        | none => st.header) ∧
      req.query = st.query ∧ req.body = body := by
  rw [buildRequest] at h
  rcases hpart : partitionOf opName op ps with e | st <;> rw [hpart] at h
  · cases h
  · dsimp only at h
    rcases hbody : bodyOf opName op st with e | ⟨rem, body, ct, isForm⟩ <;>
      rw [hbody] at h
    · cases h
    · dsimp only at h
      split at h
      next hrem =>
          simp only [Except.ok.injEq] at h
          subst h
          exact ⟨st, rem, body, ct, isForm, rfl, hbody, hrem, rfl, rfl, rfl⟩
      next => cases h

/-- C7, amended. After the declared parameters and the body-schema
properties have been moved into their buckets, any remaining key in the
caller-supplied `params` makes `_exec` fail — with a plain `Error`
carrying the unknown-parameter message (not with the
`ParamaterValidationError` class that the file declares but never
throws here) — and whenever a request is built, every forwarded field
of it is a declared one (or the Content-Type header). -/
theorem unknown_params_fail_closed (opName : String) (op : OperationData)
    (ps : List (String × String)) (st : PartState)
    (rem body : List (String × String)) (ct : Option String) (isForm : Bool)
    (hpart : partitionOf opName op ps = .ok st)
    (hbody : bodyOf opName op st = .ok (rem, body, ct, isForm)) :
    (rem ≠ [] → buildRequest opName op ps = .error (.genericError
        ("Unknown parameter(s) for " ++ opName ++ ": " ++
          String.intercalate ", " (rem.map (·.1))))) ∧
    (∀ req, buildRequest opName op ps = .ok req →
        (∀ kv ∈ req.header,
          kv.1 ∈ declaredNames op ∨ kv.1 = "Content-Type") ∧
        (∀ kv ∈ req.query, kv.1 ∈ declaredNames op) ∧
        (∀ kv ∈ req.body, kv.1 ∈ declaredNames op)) := by
  constructor
  · intro hne
    rw [buildRequest, hpart]
    dsimp only
    rw [hbody]
    dsimp only
    rw [if_neg (by simpa [List.isEmpty_iff] using hne)]
  · intro req hok
    obtain ⟨st2, rem2, body2, ct2, isForm2, hp2, hb2, _, hh, hq, hb⟩ :=
      buildRequest_ok_inv opName op ps req hok
    obtain ⟨hH, hQ, hP⟩ := partitionOf_buckets opName op ps st2 hp2
    have hBody := bodyOf_names opName op st2 rem2 body2 ct2 isForm2 hb2
    refine ⟨?_, ?_, ?_⟩
    · intro kv hkv
      rw [hh] at hkv
      cases ct2 with
      | none =>
          exact Or.inl (List.mem_append_left _ (hH kv hkv))
      | some c =>
          simp only [List.mem_append, List.mem_singleton] at hkv
          rcases hkv with hkv | hkv
          · exact Or.inl (List.mem_append_left _ (hH kv hkv))
          · right; rw [hkv]
    · intro kv hkv
      rw [hq] at hkv
      exact List.mem_append_left _ (hQ kv hkv)
    · intro kv hkv
      rw [hb] at hkv
      exact List.mem_append_right _ (hBody kv hkv)

/-- Witness for C7 (amended) at a concrete operation: a `getTopic`-like
operation with one declared path parameter, called with an extra key
`extra`, fails with the unknown-parameter `Error`. -/
theorem unknown_params_fail_closed_witness :
    buildRequest "getTopic"
      { methodStr := "get", pathTemplate := "/t/{id}.json"
        parameters := some [⟨"id", .pathLoc⟩], requestBodyContent := none }
      [("id", "123"), ("extra", "x")] =
      .error (.genericError "Unknown parameter(s) for getTopic: extra") :=
  (unknown_params_fail_closed "getTopic"
      { methodStr := "get", pathTemplate := "/t/{id}.json"
        parameters := some [⟨"id", .pathLoc⟩], requestBodyContent := none }
      [("id", "123"), ("extra", "x")]
      { header := [], query := [], pathB := [("id", "123")]
        remaining := [("extra", "x")] }
      [("extra", "x")] [] none false (by decide) (by decide)).1 (by decide)

/-- C7, counterexample to the claim as stated: the call with the extra
key fails with a plain `Error` (`new Error("Unknown parameter(s)...")`,
src/lib/api/index.ts line 653), not with the `ParamaterValidationError`
class of the same file, which `_exec` never throws. -/
theorem unknown_params_not_validation_error_cex :
    buildRequest "getTopic"
      { methodStr := "get", pathTemplate := "/t/{id}.json"
        parameters := some [⟨"id", .pathLoc⟩], requestBodyContent := none }
      [("id", "123"), ("extra", "x")] =
      .error (.genericError "Unknown parameter(s) for getTopic: extra") ∧
    ¬ ∃ m, buildRequest "getTopic"
      { methodStr := "get", pathTemplate := "/t/{id}.json"
        parameters := some [⟨"id", .pathLoc⟩], requestBodyContent := none }
      [("id", "123"), ("extra", "x")] =
      .error (.paramaterValidationError m) := by
  refine ⟨by decide, ?_⟩
  rintro ⟨m, hm⟩
  rw [show buildRequest "getTopic"
      { methodStr := "get", pathTemplate := "/t/{id}.json"
        parameters := some [⟨"id", .pathLoc⟩], requestBodyContent := none }
      [("id", "123"), ("extra", "x")] =
      .error (.genericError "Unknown parameter(s) for getTopic: extra")
    from by decide] at hm
  simp at hm

/-- C8, counterexample to the claim as stated: a `{name}` placeholder
with no corresponding path parameter is NOT treated as a build-time
contract violation — `_exec` builds the request without any error and
sends the URL with the placeholder text left in it verbatim
(`path[p] || ...` falls back to the placeholder). -/
theorem path_placeholder_left_in_url_cex :
    buildRequest "getTopic"
      { methodStr := "get", pathTemplate := "/t/{id}.json"
        parameters := some [⟨"id", ParamLoc.pathLoc⟩]
        requestBodyContent := none }
      [] =
      .ok { methodStr := "get", url := "/t/{id}.json", header := []
            query := [], body := [], isForm := false } := by
  decide

/-- C8, amended. Path template substitution replaces a `{name}`
placeholder with the corresponding path parameter's string form when
that parameter is present and non-empty; a placeholder whose parameter
is absent or empty (falsy) is left as `{name}` in the URL sent for that
call, with no error raised. Shown on the representative template for an
arbitrary path-parameter bucket. -/
theorem path_substitution_amended (lookup : List (String × String)) :
    substitutePath lookup "/t/{id}.json" =
      (match lookupP lookup "id" with
       | some v => if v = "" then "/t/{id}.json" else "/t/" ++ v ++ ".json"
       | none => "/t/{id}.json") := by
  have hdata : ("/t/{id}.json").data =
      ['/', 't', '/', '{', 'i', 'd', '}', '.', 'j', 's', 'o', 'n'] := rfl
  cases hv : lookupP lookup "id" with
  | none =>
      have hv' : lookupP lookup (String.mk ['i', 'd']) = none := hv
      simp [substitutePath, substChars, hdata, hv']
  | some v =>
      have hv' : lookupP lookup (String.mk ['i', 'd']) = some v := hv
      by_cases hemp : v = ""
      · simp [substitutePath, substChars, hdata, hv', hemp]
      · rcases v with ⟨vd⟩
        simp [substitutePath, substChars, hdata, hv', hemp]
        rfl

/-! ## Transport routing of `_exec` (src/lib/api/index.ts lines 668-730) -/

/-- The outcome of `executeRequest` awaited on the bridge: either the
browser context produced a response (the server was reached and
answered) or the promise rejected with an error message. -/
inductive BridgeOutcome where
  | resp (ok : Bool) (status : Nat) (statusText : String) (data : String)
  | errored (emsg : String)
deriving DecidableEq, Repr

/-- The WebView branch of `_exec`: a rejected promise is the thrown
error; a response with `ok = false` is converted into an `HTTPError`
carrying its status; an `ok` response yields its data. -/
def webViewApiAttempt : BridgeOutcome → Except JsError String
  | .resp ok status statusText data =>
      if ok then .ok data else .error (.httpError status statusText)
  | .errored emsg => .error (.genericError emsg)

/-- The transport routing of `_exec` after the request is built: when
`useWebViewAPI` is set and the store is ready, the bridge is tried
first and any failure of it is caught (`console.warn`) and followed by
the axios request for the same built request; otherwise axios is used
directly. Returns (result, bridge attempted, axios request sent). -/
def execTransport (useWebViewAPI isReady : Bool) (bridge : BridgeOutcome)
    (axiosResult : Except JsError String) :
    Except JsError String × Bool × Bool :=
  if useWebViewAPI && isReady then
    match webViewApiAttempt bridge with
    | .ok d => (.ok d, true, false)
    | .error _ => (axiosResult, true, true)
  else (axiosResult, false, true)

/-- C10. On the WebView path of `_exec` (enabled and ready), every
failing bridge outcome — a rejection, or a non-`ok` response, which is
converted into an `HTTPError` — is swallowed: the caller gets exactly
the axios result of re-issuing the same request, never the bridge
error; and for a non-`ok` bridge response the server has already
answered the bridge request and the axios request is sent as well, so
the request is transmitted twice. -/
theorem webview_fallback_swallows_errors (bridge : BridgeOutcome)
    (axiosResult : Except JsError String) :
    (∀ e, webViewApiAttempt bridge = .error e →
      execTransport true true bridge axiosResult = (axiosResult, true, true)) ∧
    (∀ st stx d, bridge = .resp false st stx d →
      webViewApiAttempt bridge = .error (.httpError st stx) ∧
      execTransport true true bridge axiosResult = (axiosResult, true, true)) := by
  constructor
  · intro e he
    simp [execTransport, he]
  · intro st stx d hb
    subst hb
    have hatt : webViewApiAttempt (.resp false st stx d) =
        .error (.httpError st stx) := by
      simp [webViewApiAttempt]
    exact ⟨hatt, by simp [execTransport, hatt]⟩

/-- Witness for C10: a 403 bridge response falls back to axios, whose
result (here a success) is returned while the bridge `HTTPError` is
swallowed; both transports carried the request. -/
theorem webview_fallback_swallows_errors_witness :
    webViewApiAttempt (.resp false 403 "Forbidden" "challenge") =
      .error (.httpError 403 "Forbidden") ∧
    execTransport true true (.resp false 403 "Forbidden" "challenge")
      (.ok "payload") = (.ok "payload", true, true) :=
  (webview_fallback_swallows_errors (.resp false 403 "Forbidden" "challenge")
    (.ok "payload")).2 403 "Forbidden" "challenge" rfl

/-! ## Cookie loading (`loadCookies`, src/lib/api/index.ts lines 475-501)

`loadCookies` deserializes a jar, reads the cookies it yields **for the
client's base URL** (`getCookiesSync(this.url)`) and sets each one whose
key is not `_forum_session` into the fresh instance jar. The relevant
tough-cookie behaviour is embedded: `getCookiesSync(url)` returns only
cookies whose domain matches the URL host and whose path matches the
URL path (expiry is not modelled — the claims involve none);
`setCookieSync` stores keyed by (domain, path, key), replacing an
existing entry, and rejects a cookie whose domain does not match the
URL host (the code catches that per cookie and continues). -/

structure SCookie where
  key : String
  value : String
  domain : String
  cpath : String
deriving DecidableEq, Repr

/-- RFC 6265 domain matching as tough-cookie implements it: equality or
dot-suffix. -/
def domainMatch (host dom : String) : Bool :=
  host == dom || host.endsWith ("." ++ dom)

/-- RFC 6265 path matching: equality, or the cookie path is a prefix
ending in a slash, or the next request-path character is a slash. -/
def pathMatch (reqPath cookiePath : String) : Bool :=
  reqPath == cookiePath ||
    (reqPath.startsWith cookiePath &&
      (cookiePath.endsWith "/" ||
        (reqPath.drop cookiePath.length).startsWith "/"))

/-- `getCookiesSync(url)`: the cookies of the jar that match the URL. -/
def getCookiesModel (host reqPath : String) (jar : List SCookie) :
    List SCookie :=
  jar.filter (fun c => domainMatch host c.domain && pathMatch reqPath c.cpath)

/-- `setCookieSync(cookie, url)`: upsert keyed by (domain, path, key);
a cookie whose domain does not match the URL host raises, which
`loadCookies` catches, leaving the jar unchanged. -/
def setCookieModel (host : String) (c : SCookie) (jar : List SCookie) :
    List SCookie :=
  if domainMatch host c.domain then
    if jar.any (fun c2 => c2.domain == c.domain && c2.cpath == c.cpath &&
        c2.key == c.key) then
      jar.map (fun c2 => if c2.domain == c.domain && c2.cpath == c.cpath &&
        c2.key == c.key then c else c2)
    else jar ++ [c]
  else jar

/-- The per-cookie body of the `loadCookies` loop: skip
`_forum_session`, set everything else. -/
def loadStep (host : String) (jar : List SCookie) (c : SCookie) :
    List SCookie :=
  if c.key != "_forum_session" then setCookieModel host c jar else jar

/-- `loadCookies` into the freshly constructed (empty) instance jar. -/
def loadCookiesModel (host reqPath : String) (serialized : List SCookie) :
    List SCookie :=
  (getCookiesModel host reqPath serialized).foldl (loadStep host) []

lemma loadStep_fold (host : String) :
    ∀ (l acc : List SCookie),
      (∀ c ∈ l, domainMatch host c.domain = true) →
      List.Pairwise (fun a b =>
        ¬ (a.domain = b.domain ∧ a.cpath = b.cpath ∧ a.key = b.key)) l →
      (∀ c ∈ l, ∀ c2 ∈ acc,
        ¬ (c2.domain = c.domain ∧ c2.cpath = c.cpath ∧ c2.key = c.key)) →
      l.foldl (loadStep host) acc =
        acc ++ l.filter (fun c => c.key != "_forum_session") := by
  intro l
  induction l with
  | nil => intro acc _ _ _; simp
  | cons c l ih =>
      intro acc hdm hdist hacc
      rw [List.foldl_cons]
      rcases hkey : (c.key != "_forum_session") with _ | _
      · have hstep : loadStep host acc c = acc := by
          simp [loadStep, hkey]
        rw [hstep]
        rw [ih acc (fun d hd => hdm d (List.mem_cons_of_mem c hd))
          (List.Pairwise.of_cons hdist)
          (fun d hd c2 hc2 => hacc d (List.mem_cons_of_mem c hd) c2 hc2)]
        simp [List.filter_cons, hkey]
      · have hany : acc.any (fun c2 => c2.domain == c.domain &&
            c2.cpath == c.cpath && c2.key == c.key) = false := by
          rw [List.any_eq_false]
          intro c2 hc2
          have hno := hacc c (List.mem_cons_self c l) c2 hc2
          simp only [Bool.and_eq_true, beq_iff_eq]
          intro hcontra
          exact hno ⟨hcontra.1.1, hcontra.1.2, hcontra.2⟩
        have hstep : loadStep host acc c = acc ++ [c] := by
          rw [loadStep, if_pos (by simp [hkey]), setCookieModel,
            if_pos (hdm c (List.mem_cons_self c l)), if_neg (by simp [hany])]
        rw [hstep]
        have hpair := List.pairwise_cons.mp hdist
        rw [ih (acc ++ [c]) (fun d hd => hdm d (List.mem_cons_of_mem c hd))
          hpair.2 ?hacc2]
        · simp [List.filter_cons, hkey]
        case hacc2 =>
          intro d hd c2 hc2
          rcases List.mem_append.mp hc2 with hc2 | hc2
          · exact hacc d (List.mem_cons_of_mem c hd) c2 hc2
          · rw [List.mem_singleton] at hc2
            subst hc2
            exact hpair.1 d hd

/-- C9, amended. Loading a serialized jar reproduces exactly the
cookies of the jar (same key, domain, path and value — the entries
themselves) that domain- and path-match the client's base URL, minus
the server-session cookie `_forum_session`, which is dropped; cookies
for other domains or non-matching paths are dropped as well. Stated for
jars without duplicate (domain, path, key) triples, which is what
`CookieJar` stores. -/
theorem cookie_roundtrip_amended (host reqPath : String)
    (jar : List SCookie)
    (hdist : List.Pairwise (fun a b =>
      ¬ (a.domain = b.domain ∧ a.cpath = b.cpath ∧ a.key = b.key)) jar) :
    loadCookiesModel host reqPath jar =
      jar.filter (fun c => domainMatch host c.domain &&
        pathMatch reqPath c.cpath && c.key != "_forum_session") := by
  rw [loadCookiesModel]
  rw [loadStep_fold host (getCookiesModel host reqPath jar) []
    (fun c hc => by
      rw [getCookiesModel, List.mem_filter] at hc
      have h2 := hc.2
      simp only [Bool.and_eq_true] at h2
      exact h2.1)
    (List.Pairwise.filter _ hdist)
    (fun c _ c2 hc2 => by cases hc2)]
  rw [List.nil_append, getCookiesModel, List.filter_filter]
  refine List.filter_congr fun c _ => ?_
  exact Bool.and_comm _ _

/-- Witness for C9 (amended) at a concrete jar: the matching cookie
survives, `_forum_session` is dropped. -/
theorem cookie_roundtrip_amended_witness :
    loadCookiesModel "linux.do" "/"
      [⟨"_t", "tok", "linux.do", "/"⟩,
       ⟨"_forum_session", "s", "linux.do", "/"⟩] =
      [⟨"_t", "tok", "linux.do", "/"⟩] :=
  Eq.trans
    (cookie_roundtrip_amended "linux.do" "/"
      [⟨"_t", "tok", "linux.do", "/"⟩,
       ⟨"_forum_session", "s", "linux.do", "/"⟩] (by decide))
    (by decide)

/-- C9, counterexample to the claim as stated: a cookie whose path does
not match the client's base URL path is also dropped by the round trip,
although its key is not `_forum_session` — the reproduced set is not
"every cookie except the server-session one". -/
theorem cookie_roundtrip_cex :
    loadCookiesModel "linux.do" "/" [⟨"a", "v", "linux.do", "/foo"⟩] = [] ∧
    (⟨"a", "v", "linux.do", "/foo"⟩ : SCookie).key ≠ "_forum_session" := by
  decide

/-! ## Challenge completion (`CloudflareChallengeModal.handleChallengeComplete`
and `useCloudflareStore.completeChallenge`, src/components/CloudflareChallengeModal.tsx
and src/unnamed/part_015)

`handleChallengeComplete` fires once (guarded by `hasCompletedRef`) when
the modal observes a successful non-challenge navigation. Its body only
calls `completeChallenge`, which invokes the registered
`onChallengeComplete` callback, if any, and resets the store —
`showChallenge` (the only place that could register such a callback)
has no caller in the app, and `setCfClearance` has no caller either.
Nothing reads cookies out of the WebView or writes the tough-cookie
jar; the component's own TODO comment records that the two cookie
stores are isolated. The jar is threaded through the embedding so the
theorem can state that it is untouched. -/

structure CfModalState where
  isChallengePending : Bool
  hasOnComplete : Bool
deriving DecidableEq, Repr

/-- `completeChallenge`: run the callback if registered, reset the
store. Returns the new store state and the number of callback
invocations. -/
def completeChallenge (st : CfModalState) : CfModalState × Nat :=
  ({ isChallengePending := false, hasOnComplete := false },
    if st.hasOnComplete then 1 else 0)

/-- `handleChallengeComplete`: once per challenge (the
`hasCompletedRef` guard), call `completeChallenge`. Returns the new
guard, the new store state, the tough-cookie jar (passed through
untouched — the body never references it), and the number of callback
invocations. -/
def handleChallengeComplete (hasCompleted : Bool) (st : CfModalState)
    (jar : List SCookie) : Bool × CfModalState × List SCookie × Nat :=
  if hasCompleted then (true, st, jar, 0)
  else (true, (completeChallenge st).1, jar, (completeChallenge st).2)

/-- C5, evaluation at the failing input (the claim is right about the
intended design and the code does not implement it): when the pending
challenge completes while two clearance cookies were issued inside the
WebView, the tough-cookie jar is unchanged — neither clearance cookie
is merged into it — and no retry callback runs (no caller ever
registers one, since `showChallenge` is never invoked). -/
theorem challenge_complete_no_cookie_merge :
    (handleChallengeComplete false ⟨true, false⟩
      [⟨"_t", "tok", "linux.do", "/"⟩]).2.2.1 =
      [⟨"_t", "tok", "linux.do", "/"⟩] ∧
    (⟨"cf_clearance", "tok1", "linux.do", "/"⟩ : SCookie) ∉
      (handleChallengeComplete false ⟨true, false⟩
        [⟨"_t", "tok", "linux.do", "/"⟩]).2.2.1 ∧
    (⟨"cf_clearance_2", "tok2", "linux.do", "/"⟩ : SCookie) ∉
      (handleChallengeComplete false ⟨true, false⟩
        [⟨"_t", "tok", "linux.do", "/"⟩]).2.2.1 ∧
    (handleChallengeComplete false ⟨true, false⟩
      [⟨"_t", "tok", "linux.do", "/"⟩]).2.2.2 = 0 := by
  decide

end LinuxDoApp
